import Mathlib

/-!
Shallow embedding of the interactive line-editor core of the elvish shell
repository, restricted to the parts needed for the verified properties below:

* edit/ui key values (`Ui` namespace) and styled-text line counting
  (`Styled` namespace) — these packages are external to the provided sources
  and are modelled from the spec where noted;
* the mutex-guarded shared editor state (`Clitypes` namespace, from the
  clitypes package): `RawState`, `PopForRedraw`, `Finalize`, accessors;
* the generic listing mode (`Listing` namespace): filtering key handling,
  auto-accept, and the viewport windowing function `findWindow`;
* the renderer layout engine (`Clicore` namespace): the height-allocation
  switch of `mainRenderer.Render` and its cursor-centering `findWindow`;
* the key-binding dispatcher (`Newedit` namespace): layered binding lookup
  and the error-absorbing `callBinding`.

Go mutexes are elided: every method on the shared state is embedded as a
pure function; a method that mutates its receiver returns the new receiver.
Machine integers are embedded as `Int` (Go `int`), with `Int.tdiv` for Go's
truncating integer division.
-/

namespace Ui

/-- Modelled from the spec: a key event from the edit/ui package (not among
the provided sources): a rune plus a bitset of modifiers. Function keys use
negative rune values; the concrete numbers only need to be distinct. -/
structure Key where
  rune : Int
  mod : Nat
deriving DecidableEq, Repr

/-- Modelled from the spec: the Ctrl modifier bit of edit/ui. -/
def ctrl : Nat := 4

/-- Modelled from the spec: the Shift modifier bit of edit/ui. -/
def shift : Nat := 1

/-- Modelled from the spec: the rune of the Backspace key (ASCII DEL). -/
def backspaceRune : Int := 0x7f

/-- Modelled from the spec: the special rune marking a binding table's
wildcard/default entry (edit/ui DefaultBindingRune). -/
def defaultBindingRune : Int := -23

/-- Modelled from the spec: edit/ui's `K` constructor for a key with
modifiers. -/
def K (r : Int) (m : Nat := 0) : Key := ⟨r, m⟩

/-- Modelled from the spec: the Backspace key. -/
def backspace : Key := K backspaceRune

/-- Modelled from the spec: `Default`, the key indexing a binding table's
wildcard/default entry. -/
def Default : Key := K defaultBindingRune

/-- Modelled from the spec: `Key.String`, a human-readable rendering of a
key, used only inside notices; the exact text is immaterial to the claims. -/
def keyString (k : Key) : String :=
  "Key(" ++ toString k.rune ++ "," ++ toString k.mod ++ ")"

end Ui

namespace Styled

/-- Modelled from the spec: `styled.Text.CountLines` — the number of display
lines of an item's text. Lines are separated by newline characters, so a
text always has at least one line. A styled text is embedded as its plain
string content (styling is irrelevant to all claims). -/
def countLines (s : String) : Nat := s.data.count '\n' + 1

end Styled

namespace Clitypes

/-- The value stored in `RawState.Mode`: the Go field has interface type
`clitypes.Mode` and is nilable. `nilMode` is Go `nil` (no active mode),
`dummyMode` is the no-op placeholder `dummyMode{}` installed by `Finalize`,
and `realMode` stands for any other mode implementation (identified
abstractly). -/
inductive ModeRef where
  | nilMode : ModeRef
  | dummyMode : ModeRef
  | realMode : Nat → ModeRef
deriving DecidableEq, Repr

/-- Pending code, such as during completion (clitypes.PendingCode); `endIdx`
embeds the Go field `End`. -/
structure PendingCode where
  begin : Int
  endIdx : Int
  text : String
deriving DecidableEq, Repr

/-- All the state of the editor (clitypes.RawState). `Dot` is a byte index
into `Code`. -/
structure RawState where
  Mode : ModeRef
  Code : String
  Dot : Int
  Pending : Option PendingCode
  Notes : List String
  BindingKey : Ui.Key
deriving DecidableEq, Repr

/-- clitypes.HandlerAction is a Go int enumeration. -/
abbrev HandlerAction := Int

/-- The zero HandlerAction, clitypes.NoAction. -/
def NoAction : HandlerAction := 0

/-- State.PopForRedraw: returns a copy of the raw state and sets
`Notes = nil` in the same critical section. Embedded as
(returned snapshot, state after the call). -/
def PopForRedraw (s : RawState) : RawState × RawState :=
  (s, { s with Notes := [] })

/-- State.Finalize: returns a finalized snapshot for the final redraw,
holding the mutex only for reading. Embedded as
(returned snapshot, state after the call); the receiver is unchanged. -/
def Finalize (s : RawState) : RawState × RawState :=
  (⟨ModeRef.dummyMode, s.Code, (s.Code.utf8ByteSize : Int), none, s.Notes,
    ⟨0, 0⟩⟩, s)

/-- State.SetMode. -/
def SetMode (s : RawState) (m : ModeRef) : RawState := { s with Mode := m }

/-- State.AddNote. -/
def AddNote (s : RawState) (note : String) : RawState :=
  { s with Notes := s.Notes ++ [note] }

/-- State.SetBindingKey. -/
def SetBindingKey (s : RawState) (k : Ui.Key) : RawState :=
  { s with BindingKey := k }

end Clitypes

namespace Listing

open Clitypes

/-- The listing mode's item accessor capability (listing.Items): `Len` and
`Show` as in the source; `Accept` mutates the shared editor state, embedded
as a state transformer. -/
structure Items where
  Len : Int
  Show : Int → String
  Accept : Int → RawState → RawState

/-- Modelled from the spec: the listing mode's own state (the listing
State struct is declared outside the provided sources; its fields are the
ones the provided listing code reads and writes): the item producer, the
selectLast and filtering configuration, the current filter text, the
current items, the selected index and the first visible index. -/
structure State where
  itemsGetter : String → Items
  selectLast : Bool
  filtering : Bool
  filter : String
  items : Items
  selected : Int
  first : Int

/-- Modelled from the spec: `State.refilter` (declared outside the provided
sources). Every filter change stores the new filter text, re-invokes the
item producer with it, and resets the selection per the selectLast
configuration (count-1 if selectLast, else 0) and the first visible index. -/
def State.refilter (st : State) (f : String) : State :=
  let items := st.itemsGetter f
  { st with
    filter := f
    items := items
    selected := if st.selectLast then items.Len - 1 else 0
    first := 0 }

/-- The listing mode's start configuration (listing.StartConfig). -/
structure StartConfig where
  Name : String
  KeyHandler : Option (Ui.Key → HandlerAction)
  ItemsGetter : String → Items
  StartFilter : Bool
  AutoAccept : Bool
  SelectLast : Bool

/-- The listing mode (listing.Mode): its start configuration plus its
state (the Go struct embeds StartConfig; the mutex is elided). -/
structure Mode where
  cfg : StartConfig
  state : State

/-- Whether a key press is a printable-graphic character key
(listing.likeChar): no modifiers, a positive rune, and a graphic rune. -/
def likeChar (k : Ui.Key) : Bool :=
  k.mod == 0 && decide (0 < k.rune) && isGraphic k.rune
where
  /-- Modelled from the spec: Go's unicode.IsGraphic, restricted to the
  ASCII range (all keys exercised by the claims are ASCII; space is graphic,
  DEL is not). -/
  isGraphic (r : Int) : Bool := decide (0x20 ≤ r ∧ r < 0x7f)

/-- The byte size of the last rune of a string, as returned by Go's
utf8.DecodeLastRuneInString on a well-formed UTF-8 string: 0 for the empty
string, otherwise the UTF-8 size of the last character. -/
def lastRuneSize (s : String) : Nat :=
  match s.data.getLast? with
  | none => 0
  | some c => c.utf8Size

/-- Removing the last `lastRuneSize` bytes of a well-formed UTF-8 string
(Go `filter[:len(filter)-size]`) removes exactly its last character. -/
def dropLastRune (s : String) : String := String.mk s.data.dropLast

/-- Go `string(r)`: the one-character string of a rune. Only used for the
valid runes admitted by `likeChar`. -/
def runeToString (r : Int) : String := String.mk [Char.ofNat r.toNat]

/-- listing.defaultHandler: handles keys while filtering (appending
printable-graphic runes to the filter, removing the last rune on Backspace,
noting other keys as unbound), and resets the mode when not filtering.
Embedded as (returned action, shared state after, listing state after). -/
def defaultHandler (k : Ui.Key) (st : RawState) (mst : State) :
    HandlerAction × RawState × State :=
  if mst.filtering then
    let filter := mst.filter
    if k = Ui.K Ui.backspaceRune then
      let size := lastRuneSize filter
      if 0 < size then
        (0, st, mst.refilter (dropLastRune filter))
      else
        (0, st, mst)
    else if likeChar k then
      (0, st, mst.refilter (mst.filter ++ runeToString k.rune))
    else
      (0, AddNote st ("Unbound: " ++ Ui.keyString k), mst)
  else
    (0, SetMode st ModeRef.nilMode, mst)

/-- listing.Mode.DefaultHandler: runs `defaultHandler` on the current
binding key, then, if auto-accept is configured and the item count is
exactly 1, accepts item 0 with the shared state and sets the mode to nil.
Embedded as (mode after, shared state after). -/
def Mode.DefaultHandler (m : Mode) (st : RawState) : Mode × RawState :=
  let r := defaultHandler st.BindingKey st m.state
  let st1 := r.2.1
  let mst1 := r.2.2
  if m.cfg.AutoAccept && mst1.items.Len == 1 then
    let st2 := mst1.items.Accept 0 st1
    ({ m with state := mst1 }, SetMode st2 ModeRef.nilMode)
  else
    ({ m with state := mst1 }, st1)

/-- The number of lines the listing keeps between the selection and the
window edges when possible (listing.respectDistance). -/
def respectDistance : Int := 2

/-- The downward-expansion loop of listing.findWindow
(`for i := selected+1; i < n; i++ { useDown += ...; if useDown >= budget
break }`), embedded with the remaining iteration count as fuel: `h` gives
each item's line count, `i` is the current index, `acc` the accumulated
`useDown`. -/
def useDownAux (h : Int → Nat) (budget : Int) :
    Nat → Int → Nat → Nat
  | 0, _, acc => acc
  | fuel + 1, i, acc =>
    let acc2 := acc + h i
    if budget ≤ (acc2 : Int) then acc2
    else useDownAux h budget fuel (i + 1) acc2

/-- The upward-expansion loop of listing.findWindow
(`for i := selected - 1; i >= 0; i--`): extend upwards until the upward
budget is exhausted (returning a positive crop), or until the old first
index is reached with the upward respect distance achieved and the whole
budget consumable (returning crop 0), or until item 0 is reached. `h` gives
each item's line count; the loop index is a natural number counting down. -/
def upLoopAux (h : Int → Nat) (oldFirst budgetUp budget : Int)
    (useDown : Nat) : Nat → Nat → Int × Int
  | 0, useUp =>
    let u := useUp + h 0
    if budgetUp ≤ (u : Int) then (0, (u : Int) - budgetUp)
    else if (0 : Int) ≤ oldFirst ∧ respectDistance ≤ (u : Int) ∧
        budget ≤ (u : Int) + (useDown : Int) then (0, 0)
    else (0, 0)
  | i + 1, useUp =>
    let u := useUp + h ((i + 1 : Nat) : Int)
    if budgetUp ≤ (u : Int) then (((i + 1 : Nat) : Int), (u : Int) - budgetUp)
    else if ((i + 1 : Nat) : Int) ≤ oldFirst ∧ respectDistance ≤ (u : Int) ∧
        budget ≤ (u : Int) + (useDown : Int) then (((i + 1 : Nat) : Int), 0)
    else upLoopAux h oldFirst budgetUp budget useDown i u

/-- listing.findWindow: determines the first item to show and the number of
leading lines of that item to crop, given the item accessor, the window's
old first index, the selected index and the height budget. -/
def findWindow (items : Items) (oldFirst selected maxHeight : Int) :
    Int × Int :=
  let n := items.Len
  let selectedHeight := Styled.countLines (items.Show selected)
  if maxHeight ≤ (selectedHeight : Int) then
    (selected, 0)
  else
    let budget := maxHeight - (selectedHeight : Int)
    let budgetUp0 :=
      if 2 * respectDistance ≤ budget then budget - respectDistance
      else Int.tdiv budget 2
    let budgetDown := budget - budgetUp0
    let useDown := useDownAux (fun i => Styled.countLines (items.Show i))
      budget (n - (selected + 1)).toNat (selected + 1) 0
    let budgetUp :=
      if (useDown : Int) < budgetDown then budgetUp0 + (budgetDown - useDown)
      else budgetUp0
    if selected ≤ 0 then (0, 0)
    else upLoopAux (fun i => Styled.countLines (items.Show i)) oldFirst
      budgetUp budget useDown (selected - 1).toNat 0

/-- The total line count of the items with indices in `[a, b)`. -/
def sumHeights (h : Int → Nat) (a b : Nat) : Nat :=
  ∑ j in Finset.Ico a b, h (j : Int)

/-- The line offset, inside the window described by a `findWindow` result
`fw = (first, crop)`, of the first visible line of the selected item: the
lines of items `first ≤ i < selected`, minus the cropped leading lines.
The window contains that line exactly when the offset is in
`[0, maxHeight)`. -/
def windowOffset (items : Items) (selected : Int) (fw : Int × Int) : Int :=
  ((sumHeights (fun i => Styled.countLines (items.Show i))
      fw.1.toNat selected.toNat : Nat) : Int) - fw.2

end Listing

namespace Clicore

/-- An edit/ui terminal buffer, reduced to what the layout decisions
observe: its list of lines and the line of the cursor (Buffer.Dot.Line).
Line contents are embedded as plain strings. -/
structure Buffer where
  lines : List String
  dotLine : Int
deriving DecidableEq, Repr

/-- Modelled from the spec: ui.BuffersHeight — the total number of lines of
the given buffers, a nil buffer counting as 0. -/
def buffersHeight (bs : List (Option Buffer)) : Int :=
  ((bs.map (fun b => match b with
    | none => 0
    | some b => b.lines.length)).sum : Nat)

/-- Modelled from the spec: ui.Buffer.TrimToLines — keeps the lines with
index in `[low, high)` and shifts the cursor line accordingly. -/
def trimToLines (b : Buffer) (low high : Int) : Buffer :=
  { lines := (b.lines.take high.toNat).drop low.toNat
    dotLine := b.dotLine - low }

/-- clicore's findWindow: a window of `size` lines around line `i` of a
buffer with `n` lines, clamped to the buffer. -/
def findWindow (i n size : Int) : Int × Int :=
  let low := i - Int.tdiv size 2
  let high := low + size
  if low < 0 then (0, size)
  else if high > n then (n - size, n)
  else (low, high)

/-- The outcome of mainRenderer.Render's height-allocation switch: the
(possibly trimmed) code buffer, the (possibly trimmed or dropped) mode-line
buffer, and the height handed to the mode's listing panel. -/
structure RenderResult where
  bufCode : Buffer
  bufMode : Option Buffer
  hListing : Int
deriving DecidableEq, Repr

/-- The height-allocation switch of clicore's mainRenderer.Render: in
priority order, (1) code area and mode line both fit, the rest goes to the
listing; (2) the mode line fits and at least one code line remains, the
code area is trimmed to a window around the cursor line; (3) at least 2
lines: the mode line is trimmed to one line and the rest is a code window
around the cursor; (4) otherwise the mode line is dropped and only the
cursor's own code line is kept. -/
def mainRender (maxHeight : Int) (bufCode bufMode : Buffer) : RenderResult :=
  if buffersHeight [some bufCode, some bufMode] ≤ maxHeight then
    { bufCode := bufCode, bufMode := some bufMode
      hListing := maxHeight - buffersHeight [some bufCode, some bufMode] }
  else if buffersHeight [some bufMode] + 1 ≤ maxHeight then
    let hCode := maxHeight - buffersHeight [some bufMode]
    let w := findWindow bufCode.dotLine bufCode.lines.length hCode
    { bufCode := trimToLines bufCode w.1 w.2, bufMode := some bufMode
      hListing := 0 }
  else if 2 ≤ maxHeight then
    let bufMode2 := trimToLines bufMode 0 1
    let hCode := maxHeight - 1
    let w := findWindow bufCode.dotLine bufCode.lines.length hCode
    { bufCode := trimToLines bufCode w.1 w.2, bufMode := some bufMode2
      hListing := 0 }
  else
    { bufCode := trimToLines bufCode bufCode.dotLine (bufCode.dotLine + 1)
      bufMode := none, hListing := 0 }

end Clicore

namespace Newedit

open Clitypes

/-- The cause of a failed key-binding handler call: either the recognized
cliutil.ActionError signal carrying a requested HandlerAction, or any other
failure. -/
inductive ErrCause where
  | action : HandlerAction → ErrCause
  | other : String → ErrCause
deriving DecidableEq, Repr

/-- A failure returned by running a handler: its cause (as extracted by
eval.Cause, which unwraps exception wrappers) and its rendered message
(Go err.Error()). -/
structure EvalError where
  cause : ErrCause
  msg : String
deriving DecidableEq, Repr

/-- Modelled from the spec: an eddefs.BindingMap — an ordered mapping from
keys to handlers, the wildcard/default entry being stored under the key
`Ui.Default`. `α` is the handler type (eval.Callable, kept abstract). -/
abbrev BindingMap (α : Type) : Type := List (Ui.Key × α)

/-- Modelled from the spec: BindingMap.HasKey. -/
def hasKey {α : Type} (b : BindingMap α) (k : Ui.Key) : Bool :=
  List.any b (fun p => p.1 == k)

/-- Modelled from the spec: BindingMap.GetKey, totalized with Option. -/
def getKey {α : Type} (b : BindingMap α) (k : Ui.Key) : Option α :=
  (List.find? (fun p => p.1 == k) b).map (fun p => p.2)

/-- One pass of newedit.indexLayeredBindings: the first table that has the
key wins. -/
def indexPass {α : Type} (k : Ui.Key) : List (BindingMap α) → Option α
  | [] => none
  | b :: rest => if hasKey b k then getKey b k else indexPass k rest

/-- newedit.indexLayeredBindings: look the key up in each table in order;
only if no table has it, look up the wildcard/default entry in each table
in the same order; nil if neither pass finds a handler. -/
def indexLayeredBindings {α : Type} (k : Ui.Key) (bs : List (BindingMap α)) :
    Option α :=
  match indexPass k bs with
  | some f => some f
  | none => indexPass Ui.Default bs

/-- newedit.callBinding: invoke a resolved handler. The call either
succeeds or fails with an EvalError; the opaque evaluator call is embedded
by its outcome `res`. A failure whose cause is the ActionError signal
becomes the returned action; any other failure is surfaced as an error
notice; the function itself always returns normally. Embedded as
(returned action, notices after). The relaying of the handler's value and
byte outputs into notices happens concurrently in makeNotifyPort and is
outside the claims. -/
def callBinding (notes : List String) (res : Option EvalError) :
    HandlerAction × List String :=
  match res with
  | some e =>
    match e.cause with
    | ErrCause.action a => (a, notes)
    | ErrCause.other _ => (NoAction, notes ++ ["[binding error] " ++ e.msg])
  | none => (NoAction, notes)

/-- newedit.keyHandlerFromBindings (the closure it returns, at one key):
resolve the key against the layered tables; if unresolved, notify that the
key is unbound and do nothing; otherwise record the binding key in shared
state and call the handler. The evaluator is embedded by `run`, giving each
handler's call outcome. Embedded as (returned action, shared state after);
App.Notify adds a note to the shared state. -/
def keyHandlerFromBindings {α : Type} (run : α → Option EvalError)
    (bs : List (BindingMap α)) (k : Ui.Key) (st : RawState) :
    HandlerAction × RawState :=
  match indexLayeredBindings k bs with
  | none => (NoAction, AddNote st ("Unbound: " ++ Ui.keyString k))
  | some f =>
    let st2 := SetBindingKey st k
    let r := callBinding st2.Notes (run f)
    (r.1, { st2 with Notes := r.2 })

end Newedit

/-! Concrete fixtures used by counterexample and witness theorems. -/

/-- A single one-line item. -/
def cexItems : Listing.Items := ⟨1, fun _ => "x", fun _ st => st⟩

/-- Three one-line items. -/
def witItems : Listing.Items := ⟨3, fun i => toString i, fun _ st => st⟩

/-- One item whose text renders as three lines. -/
def tallItems : Listing.Items := ⟨1, fun _ => "a\nb\nc", fun _ st => st⟩

/-- An empty shared editor state. -/
def st0 : Clitypes.RawState := ⟨Clitypes.ModeRef.nilMode, "", 0, none, [], ⟨0, 0⟩⟩

/-- An item producer that yields exactly one item for the filter "a" and two
items otherwise. -/
def getterSingleOnA : String → Listing.Items :=
  fun f => ⟨if f = "a" then 1 else 2, fun _ => "", fun _ st => st⟩

/-- A listing mode configured with auto-accept and filtering enabled, with
an empty filter. -/
def modeAuto : Listing.Mode :=
  ⟨⟨"TEST", none, getterSingleOnA, true, true, false⟩,
   ⟨getterSingleOnA, false, true, "", getterSingleOnA "", 0, 0⟩⟩

/-- A shared state whose current binding key is the letter a. -/
def stKeyA : Clitypes.RawState :=
  ⟨Clitypes.ModeRef.realMode 0, "", 0, none, [], Ui.K 97⟩

/-- An item producer echoing the filter back, for observing re-invocation. -/
def getterEcho : String → Listing.Items :=
  fun f => ⟨(f.length : Int), fun _ => f, fun _ st => st⟩

/-- A listing state filtering on the text "hello world". -/
def mstHello : Listing.State :=
  ⟨getterEcho, false, true, "hello world", getterEcho "hello world", 0, 0⟩

/-- A binding table binding only the letter a. -/
def bmA : Newedit.BindingMap Nat := [(Ui.K 97, 1)]

/-- A handler runner on which every handler call succeeds. -/
def runOk : Nat → Option Newedit.EvalError := fun _ => none

/-- A three-line code buffer with the cursor on its middle line. -/
def bufC : Clicore.Buffer := ⟨["c0", "c1", "c2"], 1⟩

/-- A one-line mode-line buffer. -/
def bufM : Clicore.Buffer := ⟨["m0"], 0⟩

/-! Helper lemmas. -/

/-- A styled text always renders as at least one line. -/
theorem countLines_pos (s : String) : 1 ≤ Styled.countLines s := by
  simp [Styled.countLines]

/-- The item-line sum over an empty index range is zero. -/
theorem sumHeights_self (h : Int → Nat) (a : Nat) :
    Listing.sumHeights h a a = 0 := by
  simp [Listing.sumHeights]

/-- Peeling the topmost index off an item-line sum. -/
theorem sumHeights_succ_top (h : Int → Nat) {a b : Nat} (hab : a ≤ b) :
    Listing.sumHeights h a (b + 1) = Listing.sumHeights h a b + h (b : Int) := by
  simp [Listing.sumHeights, Finset.sum_Ico_succ_top hab]

/-! C8. -/

/-- C8: PopForRedraw returns a copy of the full state and clears the notes
in the same step; running it twice in a row returns an empty notice list the
second time, and the two returned notice lists concatenate to exactly the
original notices (none lost, none duplicated). -/
theorem popForRedraw_read_and_clear (s : Clitypes.RawState) :
    (Clitypes.PopForRedraw s).1 = s ∧
    (Clitypes.PopForRedraw s).2.Notes = [] ∧
    (Clitypes.PopForRedraw (Clitypes.PopForRedraw s).2).1.Notes = [] ∧
    (Clitypes.PopForRedraw s).1.Notes ++
      (Clitypes.PopForRedraw (Clitypes.PopForRedraw s).2).1.Notes = s.Notes := by
  simp [Clitypes.PopForRedraw]

/-! C9. -/

/-- C9: Finalize leaves the shared state unchanged, and the snapshot it
returns has its mode replaced by the no-op placeholder, its cursor forced to
the end of the code text (its byte length), the code and notes preserved,
and the pending code and binding key cleared. -/
theorem finalize_readonly_snapshot (s : Clitypes.RawState) :
    (Clitypes.Finalize s).2 = s ∧
    (Clitypes.Finalize s).1.Mode = Clitypes.ModeRef.dummyMode ∧
    (Clitypes.Finalize s).1.Code = s.Code ∧
    (Clitypes.Finalize s).1.Dot = (s.Code.utf8ByteSize : Int) ∧
    (Clitypes.Finalize s).1.Pending = none ∧
    (Clitypes.Finalize s).1.Notes = s.Notes ∧
    (Clitypes.Finalize s).1.BindingKey = ⟨0, 0⟩ :=
  ⟨rfl, rfl, rfl, rfl, rfl, rfl, rfl⟩

/-! C7. -/

/-- C7: when the selected item's own line count cannot fit in the height
budget, the listing findWindow returns (selected, 0), anchoring the window
at the selected item's own start regardless of the old first index. -/
theorem findWindow_selected_not_fitting (items : Listing.Items)
    (oldFirst selected maxHeight : Int)
    (h : maxHeight < (Styled.countLines (items.Show selected) : Int)) :
    Listing.findWindow items oldFirst selected maxHeight = (selected, 0) := by
  simp only [Listing.findWindow]
  rw [if_pos (by omega)]

/-- Witness for C7 at a concrete input: a three-line item in a two-line
budget. -/
theorem findWindow_selected_not_fitting_witness :
    (2 : Int) < (Styled.countLines (tallItems.Show 0) : Int) ∧
    Listing.findWindow tallItems 5 0 2 = (0, 0) :=
  ⟨by decide, findWindow_selected_not_fitting tallItems 5 0 2 (by decide)⟩

/-! C2. -/

/-- C2: callBinding never propagates a handler failure: a successful call
yields NoAction and no new notice; a failure whose cause is the recognized
requested-action signal yields that action and no error notice; any other
failure yields NoAction and exactly one error notice. -/
theorem callBinding_absorbs_failures (notes : List String)
    (res : Option Newedit.EvalError) :
    (res = none →
      Newedit.callBinding notes res = (Clitypes.NoAction, notes)) ∧
    (∀ e a, res = some e → e.cause = Newedit.ErrCause.action a →
      Newedit.callBinding notes res = (a, notes)) ∧
    (∀ e m, res = some e → e.cause = Newedit.ErrCause.other m →
      Newedit.callBinding notes res =
        (Clitypes.NoAction, notes ++ ["[binding error] " ++ e.msg])) := by
  refine ⟨?_, ?_, ?_⟩
  · rintro rfl; rfl
  · rintro e a rfl hc
    simp [Newedit.callBinding, hc]
  · rintro e m rfl hc
    simp [Newedit.callBinding, hc]

/-- Witness for C2 at a concrete input: a failure carrying the
requested-action signal becomes the returned action, without a notice. -/
theorem callBinding_absorbs_failures_witness :
    Newedit.callBinding ["n"] (some ⟨Newedit.ErrCause.action 2, "x"⟩) =
      (2, ["n"]) :=
  (callBinding_absorbs_failures ["n"] (some ⟨Newedit.ErrCause.action 2, "x"⟩)).2.1
    ⟨Newedit.ErrCause.action 2, "x"⟩ 2 rfl rfl

/-! C10. -/

/-- C10: the renderer's cursor-centering findWindow, for 0 ≤ i < n and
0 < size ≤ n, returns a window (low, high) with 0 ≤ low ≤ i < high ≤ n and
high - low = size: exactly size lines, inside the buffer, containing the
cursor line. -/
theorem renderer_findWindow_window_invariants (i n size : Int)
    (h1 : 0 ≤ i) (h2 : i < n) (h3 : 0 < size) (h4 : size ≤ n) :
    0 ≤ (Clicore.findWindow i n size).1 ∧
    (Clicore.findWindow i n size).1 ≤ i ∧
    i < (Clicore.findWindow i n size).2 ∧
    (Clicore.findWindow i n size).2 ≤ n ∧
    (Clicore.findWindow i n size).2 - (Clicore.findWindow i n size).1 = size := by
  have hd : Int.tdiv size 2 = size / 2 := Int.tdiv_eq_ediv (by omega) (by omega)
  simp only [Clicore.findWindow, hd]
  split_ifs <;> refine ⟨?_, ?_, ?_, ?_, ?_⟩ <;> dsimp only <;> omega

/-- Witness for C10 at a concrete input. -/
theorem renderer_findWindow_window_invariants_witness :
    0 ≤ (Clicore.findWindow 5 10 4).1 ∧
    (Clicore.findWindow 5 10 4).1 ≤ 5 ∧
    (5 : Int) < (Clicore.findWindow 5 10 4).2 ∧
    (Clicore.findWindow 5 10 4).2 ≤ 10 ∧
    (Clicore.findWindow 5 10 4).2 - (Clicore.findWindow 5 10 4).1 = 4 :=
  renderer_findWindow_window_invariants 5 10 4 (by decide) (by decide)
    (by decide) (by decide)

/-! C3. -/

/-- If a binding table has a key, looking the key up yields a handler. -/
theorem getKey_isSome_of_hasKey {α : Type} (b : Newedit.BindingMap α)
    (k : Ui.Key) (h : Newedit.hasKey b k = true) :
    (Newedit.getKey b k).isSome = true := by
  simp only [Newedit.hasKey, List.any_eq_true] at h
  have hs : (List.find? (fun p => p.1 == k) b).isSome = true :=
    List.find?_isSome.mpr h
  obtain ⟨q, hq⟩ := Option.isSome_iff_exists.mp hs
  simp [Newedit.getKey, hq]

/-- One lookup pass over layered tables finds the first table having the
key and uses its entry. -/
theorem indexPass_eq_find {α : Type} (k : Ui.Key)
    (bs : List (Newedit.BindingMap α)) :
    Newedit.indexPass k bs =
      (bs.find? (fun b => Newedit.hasKey b k)).bind
        (fun b => Newedit.getKey b k) := by
  induction bs with
  | nil => rfl
  | cons b rest ih =>
    by_cases hb : Newedit.hasKey b k = true
    · simp [Newedit.indexPass, hb, List.find?_cons_of_pos]
    · simp only [Newedit.indexPass]
      rw [if_neg (by simp [hb]), ih, List.find?_cons_of_neg _ (by simp [hb])]

/-- C3: key resolution over layered binding tables is two-pass: the key is
looked up in each table in order and the first hit is used; only when no
table has the key is the wildcard/default entry looked up in each table in
the same order (so a later table's specific entry is never shadowed by an
earlier table's default entry); and when neither pass finds a handler, the
dispatcher emits a key-unbound notice and returns the no-action result. -/
theorem layered_binding_two_pass {α : Type}
    (run : α → Option Newedit.EvalError) (k : Ui.Key)
    (bs : List (Newedit.BindingMap α)) (st : Clitypes.RawState) :
    (Newedit.indexLayeredBindings k bs =
      match bs.find? (fun b => Newedit.hasKey b k) with
      | some b => Newedit.getKey b k
      | none =>
        match bs.find? (fun b => Newedit.hasKey b Ui.Default) with
        | some b => Newedit.getKey b Ui.Default
        | none => none) ∧
    (bs.find? (fun b => Newedit.hasKey b k) = none →
     bs.find? (fun b => Newedit.hasKey b Ui.Default) = none →
     Newedit.keyHandlerFromBindings run bs k st =
       (Clitypes.NoAction,
        Clitypes.AddNote st ("Unbound: " ++ Ui.keyString k))) := by
  constructor
  · cases hfind : bs.find? (fun b => Newedit.hasKey b k) with
    | some b =>
      have hb : Newedit.hasKey b k = true := by
        have := List.find?_some hfind
        simpa using this
      obtain ⟨v, hv⟩ := Option.isSome_iff_exists.mp
        (getKey_isSome_of_hasKey b k hb)
      simp [Newedit.indexLayeredBindings, indexPass_eq_find, hfind, hv]
    | none =>
      cases hfind2 : bs.find? (fun b => Newedit.hasKey b Ui.Default) with
      | some b =>
        simp [Newedit.indexLayeredBindings, indexPass_eq_find, hfind, hfind2]
      | none =>
        simp [Newedit.indexLayeredBindings, indexPass_eq_find, hfind, hfind2]
  · intro h1 h2
    have hnone : Newedit.indexLayeredBindings k bs = none := by
      simp [Newedit.indexLayeredBindings, indexPass_eq_find, h1, h2]
    simp [Newedit.keyHandlerFromBindings, hnone]

/-- Witness for C3 at a concrete input: a key bound in no table and no
default entry yields the unbound notice and no action. -/
theorem layered_binding_two_pass_witness :
    Newedit.keyHandlerFromBindings runOk [bmA] (Ui.K 98) st0 =
      (Clitypes.NoAction,
       Clitypes.AddNote st0 ("Unbound: " ++ Ui.keyString (Ui.K 98))) :=
  (layered_binding_two_pass runOk (Ui.K 98) [bmA] st0).2 (by decide) (by decide)

/-! C6. -/

/-- A nonempty string has a last rune of positive byte size. -/
theorem lastRuneSize_pos (s : String) (h : s ≠ "") :
    0 < Listing.lastRuneSize s := by
  have hd : s.data ≠ [] := fun hnil => h (by cases s; simp_all)
  obtain ⟨c, hc⟩ := List.getLast?_isSome.mpr hd |> Option.isSome_iff_exists.mp
  simp [Listing.lastRuneSize, hc, Char.utf8Size_pos]

/-- C6: while filtering is enabled, Backspace on a nonempty filter text
removes exactly the last Unicode scalar value of the filter (not the last
byte) and re-invokes the item producer with the shortened filter; a
printable-graphic key press appends its rune to the filter text and
re-invokes the item producer with the extended filter. -/
theorem listing_filter_key_handling (st : Clitypes.RawState)
    (mst : Listing.State) (k : Ui.Key) (hf : mst.filtering = true) :
    (k = Ui.K Ui.backspaceRune → mst.filter ≠ "" →
      (Listing.defaultHandler k st mst).2.2 =
        mst.refilter (Listing.dropLastRune mst.filter) ∧
      (Listing.defaultHandler k st mst).2.2.filter =
        Listing.dropLastRune mst.filter ∧
      (Listing.defaultHandler k st mst).2.2.items =
        mst.itemsGetter (Listing.dropLastRune mst.filter)) ∧
    (Listing.likeChar k = true →
      (Listing.defaultHandler k st mst).2.2 =
        mst.refilter (mst.filter ++ Listing.runeToString k.rune) ∧
      (Listing.defaultHandler k st mst).2.2.filter =
        mst.filter ++ Listing.runeToString k.rune ∧
      (Listing.defaultHandler k st mst).2.2.items =
        mst.itemsGetter (mst.filter ++ Listing.runeToString k.rune)) := by
  constructor
  · rintro rfl hne
    have hsz : 0 < Listing.lastRuneSize mst.filter := lastRuneSize_pos _ hne
    simp only [Listing.defaultHandler, hf, if_true]
    rw [if_pos hsz]
    exact ⟨rfl, rfl, rfl⟩
  · intro hlc
    have hkb : k ≠ Ui.K Ui.backspaceRune := by
      rintro rfl
      simp [Listing.likeChar, Listing.likeChar.isGraphic, Ui.K,
        Ui.backspaceRune] at hlc
    simp only [Listing.defaultHandler, hf, if_true]
    rw [if_neg hkb, if_pos hlc]
    exact ⟨rfl, rfl, rfl⟩

/-- Witness for C6 at a concrete input: Backspace on the filter text
"hello world" yields "hello worl", and the item producer is re-invoked with
it. -/
theorem listing_filter_key_handling_witness :
    mstHello.filtering = true ∧ mstHello.filter ≠ "" ∧
    (Listing.defaultHandler (Ui.K Ui.backspaceRune) st0 mstHello).2.2.filter =
      "hello worl" := by
  refine ⟨rfl, by decide, ?_⟩
  have h := (listing_filter_key_handling st0 mstHello
    (Ui.K Ui.backspaceRune) rfl).1 rfl (by decide)
  rw [h.2.1]
  decide

/-! C5. -/

/-- C5: after filter-driven default-key handling, if auto-accept is
configured and the item count is exactly 1, DefaultHandler accepts item 0
with the shared editor state resulting from the key handling and then sets
the active mode to none. -/
theorem listing_auto_accept_single_item (m : Listing.Mode)
    (st : Clitypes.RawState) (hauto : m.cfg.AutoAccept = true)
    (hlen : (Listing.defaultHandler st.BindingKey st m.state).2.2.items.Len
      = 1) :
    (m.DefaultHandler st).2 =
      Clitypes.SetMode
        ((Listing.defaultHandler st.BindingKey st m.state).2.2.items.Accept 0
          (Listing.defaultHandler st.BindingKey st m.state).2.1)
        Clitypes.ModeRef.nilMode ∧
    (m.DefaultHandler st).2.Mode = Clitypes.ModeRef.nilMode := by
  have hcond : (m.cfg.AutoAccept &&
      (Listing.defaultHandler st.BindingKey st m.state).2.2.items.Len == 1)
      = true := by
    simp [hauto, hlen]
  simp only [Listing.Mode.DefaultHandler]
  rw [if_pos hcond]
  exact ⟨rfl, rfl⟩

/-- Witness for C5 at a concrete input: with auto-accept configured,
pressing the letter a narrows the items to a single one, which is accepted,
and the active mode becomes none. -/
theorem listing_auto_accept_single_item_witness :
    modeAuto.cfg.AutoAccept = true ∧
    (Listing.defaultHandler stKeyA.BindingKey stKeyA modeAuto.state).2.2.items.Len
      = 1 ∧
    (modeAuto.DefaultHandler stKeyA).2.Mode = Clitypes.ModeRef.nilMode := by
  refine ⟨rfl, by decide, ?_⟩
  exact (listing_auto_accept_single_item modeAuto stKeyA rfl (by decide)).2

/-! C4. -/

/-- C4: mainRenderer allocates height in strict priority order: (1) if the
code area plus the mode line fit fully, all remaining height goes to the
listing panel and neither buffer is cropped; (2) else if the mode line fits
with at least one line left over, the code area is cropped to a
cursor-centered window of the remaining height and the panel gets nothing;
(3) else if at least 2 lines are available, the mode line is cropped to one
line and the rest is a cursor-centered code window; (4) otherwise the mode
line is dropped and only the cursor's own code line is shown. -/
theorem mainRenderer_height_allocation (maxHeight : Int)
    (bufCode bufMode : Clicore.Buffer) :
    ((bufCode.lines.length : Int) + (bufMode.lines.length : Int) ≤ maxHeight →
      Clicore.mainRender maxHeight bufCode bufMode =
        ⟨bufCode, some bufMode,
         maxHeight -
           ((bufCode.lines.length : Int) + (bufMode.lines.length : Int))⟩) ∧
    (maxHeight < (bufCode.lines.length : Int) + (bufMode.lines.length : Int) →
     (bufMode.lines.length : Int) + 1 ≤ maxHeight →
      Clicore.mainRender maxHeight bufCode bufMode =
        ⟨Clicore.trimToLines bufCode
           (Clicore.findWindow bufCode.dotLine bufCode.lines.length
             (maxHeight - (bufMode.lines.length : Int))).1
           (Clicore.findWindow bufCode.dotLine bufCode.lines.length
             (maxHeight - (bufMode.lines.length : Int))).2,
         some bufMode, 0⟩) ∧
    (maxHeight < (bufCode.lines.length : Int) + (bufMode.lines.length : Int) →
     maxHeight < (bufMode.lines.length : Int) + 1 →
     2 ≤ maxHeight →
      Clicore.mainRender maxHeight bufCode bufMode =
        ⟨Clicore.trimToLines bufCode
           (Clicore.findWindow bufCode.dotLine bufCode.lines.length
             (maxHeight - 1)).1
           (Clicore.findWindow bufCode.dotLine bufCode.lines.length
             (maxHeight - 1)).2,
         some (Clicore.trimToLines bufMode 0 1), 0⟩) ∧
    (maxHeight < (bufCode.lines.length : Int) + (bufMode.lines.length : Int) →
     maxHeight < (bufMode.lines.length : Int) + 1 →
     maxHeight < 2 →
      Clicore.mainRender maxHeight bufCode bufMode =
        ⟨Clicore.trimToLines bufCode bufCode.dotLine (bufCode.dotLine + 1),
         none, 0⟩) := by
  have hbh2 : Clicore.buffersHeight [some bufCode, some bufMode] =
      (bufCode.lines.length : Int) + (bufMode.lines.length : Int) := by
    simp [Clicore.buffersHeight]
  have hbh1 : Clicore.buffersHeight [some bufMode] =
      (bufMode.lines.length : Int) := by
    simp [Clicore.buffersHeight]
  refine ⟨?_, ?_, ?_, ?_⟩
  · intro h1
    simp only [Clicore.mainRender, hbh2, hbh1]
    rw [if_pos h1]
  · intro h1 h2
    simp only [Clicore.mainRender, hbh2, hbh1]
    rw [if_neg (by omega), if_pos h2]
  · intro h1 h2 h3
    simp only [Clicore.mainRender, hbh2, hbh1]
    rw [if_neg (by omega), if_neg (by omega), if_pos h3]
  · intro h1 h2 h3
    simp only [Clicore.mainRender, hbh2, hbh1]
    rw [if_neg (by omega), if_neg (by omega), if_neg (by omega)]

/-- Witness for C4 at a concrete input: a three-line code area and a
one-line mode line under a ten-line budget both fit, and the six remaining
lines all go to the listing panel. -/
theorem mainRenderer_height_allocation_witness :
    ((bufC.lines.length : Int) + (bufM.lines.length : Int) ≤ 10) ∧
    Clicore.mainRender 10 bufC bufM =
      ⟨bufC, some bufM,
       10 - ((bufC.lines.length : Int) + (bufM.lines.length : Int))⟩ :=
  ⟨by decide, (mainRenderer_height_allocation 10 bufC bufM).1 (by decide)⟩

/-! C1. -/

/-- Invariant of the upward-expansion loop: starting at index i with
accumulated line count useUp, the loop returns a first index f at most i
and a nonnegative crop c such that the lines of items f..i plus useUp,
minus the crop, either equal the upward budget exactly (when the budget was
exhausted) or stay strictly below it with no crop. -/
theorem upLoopAux_spec (h : Int → Nat) (oldFirst budgetUp budget : Int)
    (useDown : Nat) (i : Nat) :
    ∀ useUp : Nat, ∃ (f : Nat) (c : Int),
      Listing.upLoopAux h oldFirst budgetUp budget useDown i useUp
        = ((f : Int), c) ∧
      f ≤ i ∧ 0 ≤ c ∧
      (((Listing.sumHeights h f (i + 1) + useUp : Nat) : Int) - c = budgetUp ∨
       (((Listing.sumHeights h f (i + 1) + useUp : Nat) : Int) - c < budgetUp ∧
        c = 0)) := by
  induction i with
  | zero =>
    intro useUp
    have hs : Listing.sumHeights h 0 1 = h 0 := by
      have := sumHeights_succ_top h (Nat.le_refl 0)
      simpa [sumHeights_self] using this
    by_cases h1 : budgetUp ≤ ((useUp + h 0 : Nat) : Int)
    · refine ⟨0, ((useUp + h 0 : Nat) : Int) - budgetUp, ?_, Nat.le_refl 0,
        by omega, ?_⟩
      · simp only [Listing.upLoopAux]
        rw [if_pos h1]
        simp
      · left
        rw [hs]
        push_cast
        omega
    · refine ⟨0, 0, ?_, Nat.le_refl 0, le_refl 0, ?_⟩
      · simp only [Listing.upLoopAux]
        rw [if_neg h1, ite_self]
        simp
      · right
        rw [hs]
        constructor
        · push_cast
          omega
        · rfl
  | succ i ih =>
    intro useUp
    have hs : Listing.sumHeights h (i + 1) (i + 1 + 1)
        = h ((i + 1 : Nat) : Int) := by
      have := sumHeights_succ_top h (Nat.le_refl (i + 1))
      simpa [sumHeights_self] using this
    by_cases h1 : budgetUp ≤ ((useUp + h ((i + 1 : Nat) : Int) : Nat) : Int)
    · refine ⟨i + 1, ((useUp + h ((i + 1 : Nat) : Int) : Nat) : Int) - budgetUp,
        ?_, Nat.le_refl _, by omega, ?_⟩
      · simp only [Listing.upLoopAux]
        rw [if_pos h1]
      · left
        rw [hs]
        push_cast at h1 ⊢
        omega
    · by_cases h2 : ((i + 1 : Nat) : Int) ≤ oldFirst ∧
          Listing.respectDistance ≤ ((useUp + h ((i + 1 : Nat) : Int) : Nat) : Int) ∧
          budget ≤ ((useUp + h ((i + 1 : Nat) : Int) : Nat) : Int) + (useDown : Int)
      · refine ⟨i + 1, 0, ?_, Nat.le_refl _, le_refl 0, ?_⟩
        · simp only [Listing.upLoopAux]
          rw [if_neg h1, if_pos h2]
        · right
          rw [hs]
          constructor
          · push_cast at h1 ⊢
            omega
          · rfl
      · obtain ⟨f, c, heq, hfi, hc, hdisj⟩ := ih (useUp + h ((i + 1 : Nat) : Int))
        refine ⟨f, c, ?_, Nat.le_succ_of_le hfi, hc, ?_⟩
        · simp only [Listing.upLoopAux]
          rw [if_neg h1, if_neg h2]
          exact heq
        · have hstep : Listing.sumHeights h f (i + 1 + 1)
              = Listing.sumHeights h f (i + 1) + h ((i + 1 : Nat) : Int) :=
            sumHeights_succ_top h (Nat.le_succ_of_le hfi)
          rw [hstep]
          set x := h ((i + 1 : Nat) : Int) with hxdef
          push_cast at hdisj ⊢
          omega

/-- C1 (amended with a positive height budget): for every item list, old
first index, selected index in range and height budget of at least one
line, the listing findWindow returns a first index at most the selected
index and a nonnegative crop, and the window it describes contains the
first visible line of the selected item (its line offset inside the window
is in [0, maxHeight)). -/
theorem findWindow_keeps_selected_visible (items : Listing.Items)
    (oldFirst selected maxHeight : Int)
    (hsel0 : 0 ≤ selected) (hseln : selected < items.Len)
    (hmax : 1 ≤ maxHeight) :
    (Listing.findWindow items oldFirst selected maxHeight).1 ≤ selected ∧
    0 ≤ (Listing.findWindow items oldFirst selected maxHeight).2 ∧
    0 ≤ Listing.windowOffset items selected
      (Listing.findWindow items oldFirst selected maxHeight) ∧
    Listing.windowOffset items selected
      (Listing.findWindow items oldFirst selected maxHeight) < maxHeight := by
  have hsh : 1 ≤ Styled.countLines (items.Show selected) := countLines_pos _
  by_cases hb : maxHeight ≤ (Styled.countLines (items.Show selected) : Int)
  · simp only [Listing.findWindow]
    rw [if_pos hb]
    have hoff : Listing.windowOffset items selected (selected, 0) = 0 := by
      simp [Listing.windowOffset, sumHeights_self]
    exact ⟨le_refl _, le_refl _, by rw [hoff], by rw [hoff]; omega⟩
  · simp only [Listing.findWindow]
    rw [if_neg hb]
    by_cases hs0 : selected ≤ 0
    · rw [if_pos hs0]
      have hoff : Listing.windowOffset items selected ((0 : Int), (0 : Int))
          = 0 := by
        have : selected.toNat = 0 := by omega
        simp [Listing.windowOffset, this, sumHeights_self]
      exact ⟨by omega, le_refl _, by rw [hoff], by rw [hoff]; omega⟩
    · rw [if_neg hs0]
      have hrd : Listing.respectDistance = 2 := rfl
      set sh := Styled.countLines (items.Show selected) with hshdef
      set budget := maxHeight - (sh : Int) with hbud
      set B0 := (if 2 * Listing.respectDistance ≤ budget
        then budget - Listing.respectDistance
        else Int.tdiv budget 2) with hB0
      set U := Listing.useDownAux (fun i => Styled.countLines (items.Show i))
        budget (items.Len - (selected + 1)).toNat (selected + 1) 0 with hU
      set B := (if (U : Int) < budget - B0 then B0 + (budget - B0 - (U : Int))
        else B0) with hB
      obtain ⟨f, c, heq, hfi, hc, hdisj⟩ :=
        upLoopAux_spec (fun i => Styled.countLines (items.Show i)) oldFirst B
          budget U ((selected - 1).toNat) 0
      rw [heq]
      have hidx : (selected - 1).toNat + 1 = selected.toNat := by omega
      rw [hidx] at hdisj
      have hoff : Listing.windowOffset items selected ((f : Int), c) =
          ((Listing.sumHeights (fun i => Styled.countLines (items.Show i))
            f selected.toNat : Nat) : Int) - c := by
        simp [Listing.windowOffset]
      have htd : Int.tdiv budget 2 = budget / 2 :=
        Int.tdiv_eq_ediv (by omega) (by omega)
      have hBb : 0 ≤ B ∧ B ≤ budget := by
        rw [hB, hB0, htd]
        split_ifs <;> constructor <;> omega
      push_cast at hdisj
      refine ⟨?_, ?_, ?_, ?_⟩
      · dsimp only
        omega
      · dsimp only
        exact hc
      · rw [hoff]
        omega
      · rw [hoff]
        omega

/-- Counterexample to C1 as stated (quantified over every maxHeight): at a
one-item list with selected = 0 (in range) and maxHeight = 0, findWindow
returns (0, 0), whose window holds zero lines and hence does not contain
the selected item's first visible line. -/
theorem findWindow_zero_height_cex :
    (0 : Int) ≤ 0 ∧ (0 : Int) < cexItems.Len ∧
    ¬ ((Listing.findWindow cexItems 0 0 0).1 ≤ 0 ∧
       0 ≤ (Listing.findWindow cexItems 0 0 0).2 ∧
       0 ≤ Listing.windowOffset cexItems 0 (Listing.findWindow cexItems 0 0 0) ∧
       Listing.windowOffset cexItems 0 (Listing.findWindow cexItems 0 0 0) < 0)
    := by
  decide

/-- Witness for the amended C1 at a concrete input: three one-line items,
selected index 1, budget 3. -/
theorem findWindow_keeps_selected_visible_witness :
    ((0 : Int) ≤ 1 ∧ (1 : Int) < witItems.Len ∧ (1 : Int) ≤ 3) ∧
    ((Listing.findWindow witItems 0 1 3).1 ≤ 1 ∧
     0 ≤ (Listing.findWindow witItems 0 1 3).2 ∧
     0 ≤ Listing.windowOffset witItems 1 (Listing.findWindow witItems 0 1 3) ∧
     Listing.windowOffset witItems 1 (Listing.findWindow witItems 0 1 3) < 3) :=
  ⟨⟨by decide, by decide, by decide⟩,
   findWindow_keeps_selected_visible witItems 0 1 3 (by decide) (by decide)
     (by decide)⟩
